import Mathlib

/-!
Shallow embedding of the protocol core of `PiOBDII.py` (ELM327 OBDII
diagnostic script): the transport framer `GetResponse`, the line pruners
`PruneData` and `PruneDataVin`, the trouble-code decoder
`DataToTroubleCodes`, the formatting pipeline `GetTroubleCodeData`, the
bus-connect retry loop, and the top-level script body.

Strings are modelled as `List Char`; the serial port is modelled as the
list of values successive `SerialCon.read()` calls return; Python
exceptions are modelled with `Except`; a run of a loop that would keep
blocking on `read()` past the modelled stream is `none`.
-/

set_option linter.unusedVariables false

/-- Python-level runtime errors raised by the modelled code. `keyError`
models Python's `KeyError` (a subclass of `LookupError`), `unicodeError`
models `UnicodeDecodeError` (a subclass of `ValueError`). -/
inductive PyErr where
  | typeError
  | valueError
  | keyError
  | unicodeError
  deriving DecidableEq

/-- One result of the `SerialCon.read()` call in `GetResponse`
(PiOBDII.py line 93): a single byte, an empty read (`b''`, which pyserial
returns on timeout), or the Python integer `0` — the sentinel value the
loop condition on line 92 compares `ReadChar` against. -/
inductive ReadVal where
  | byte (b : Nat)
  | timeout
  | zero
  deriving DecidableEq

deriving instance DecidableEq for Except

/-- `Response.replace('\r', '\n')` from line 96: every carriage return
becomes a line break. -/
def replaceCR (s : List Char) : List Char :=
  s.map (fun c => if c = '\r' then '\n' else c)

/-- `.replace('\n\n', '\n')` from line 96: Python replaces non-overlapping
occurrences left to right, so a doubled line break collapses to one. -/
def collapseNN : List Char → List Char
  | '\n' :: '\n' :: rest => '\n' :: collapseNN rest
  | c :: rest => c :: collapseNN rest
  | [] => []

/-- The read loop of `GetResponse` (lines 90-96).  The accumulator is
`Response`; on each iteration the loop body appends
`str(ReadChar, 'utf-8')` whenever `ReadChar != b'>'`, and the loop
condition `ReadChar != b'>' and ReadChar != 0` is re-checked afterwards.
Consequences kept by the model: a prompt byte (`b'>'`, value 62) ends the
loop and the normalized accumulator is returned; an empty read (`b''`)
appends nothing and the loop continues; a read that returns the integer
`0` reaches the append first, and `str(0, 'utf-8')` raises `TypeError`;
a lone non-ASCII byte makes `str(bytes([b]), 'utf-8')` raise
`UnicodeDecodeError`.  `none` models exhausting the modelled stream with
the loop still running (the Python code would keep blocking on
`read()`); otherwise the unread remainder of the stream is returned for
sequencing later commands. -/
def GetResponseAux : List ReadVal → List Char → Option (Except PyErr (List Char) × List ReadVal)
  | [], _ => none
  | ReadVal.zero :: rest, _ => some (Except.error PyErr.typeError, rest)
  | ReadVal.timeout :: rest, acc => GetResponseAux rest acc
  | ReadVal.byte b :: rest, acc =>
      if b = 62 then some (Except.ok (collapseNN (replaceCR acc)), rest)
      else if b < 128 then GetResponseAux rest (acc ++ [Char.ofNat b])
      else some (Except.error PyErr.unicodeError, rest)

/-- `GetResponse` (lines 88-96).  The `SerialCon.write(Data)` that
precedes the read loop only affects the device; its effect is reflected
in the choice of the modelled read stream, so the command bytes are not a
parameter of the model. -/
def GetResponse (stream : List ReadVal) : Option (Except PyErr (List Char) × List ReadVal) :=
  GetResponseAux stream []

/-- Python `Data.split('\n')`: splitting on every separator occurrence,
keeping empty pieces, with `"".split('\n') == [""]`. -/
def splitNL : List Char → List (List Char)
  | [] => [[]]
  | '\n' :: rest => [] :: splitNL rest
  | c :: rest =>
      match splitNL rest with
      | [] => [[c]]
      | l :: ls => (c :: l) :: ls

/-- `PruneData` (lines 108-113): for every line of the response drop the
first `2 * RemoveByteCount` characters and append the remainder to the
running string. -/
def PruneData (data : List Char) (removeByteCount : Nat) : List Char :=
  (splitNL data).foldl (fun resp line => resp ++ line.drop (2 * removeByteCount)) []

/-- `PruneDataVin` (lines 124-136): the per-line drop count depends on the
position produced by `enumerate`: line 1 loses `2 * 4` characters, lines
2 and 3 lose 2 characters, every other line loses
`2 * RemoveByteCount`. -/
def PruneDataVin (data : List Char) (removeByteCount : Nat) : List Char :=
  ((splitNL data).enum).foldl
    (fun resp p =>
      resp ++ (if p.1 = 1 then p.2.drop (2 * 4)
               else if 2 ≤ p.1 ∧ p.1 < 4 then p.2.drop 2
               else p.2.drop (2 * removeByteCount))) []

/-- Value of a list of decimal digit characters, most significant first. -/
def digitsVal (s : List Char) : Nat :=
  s.foldl (fun a c => 10 * a + (c.toNat - 48)) 0

def allDigits (s : List Char) : Bool :=
  s.all Char.isDigit

/-- Python `int(...)` as called on line 148, on the argument shapes this
program can produce: an optional sign followed by at least one decimal
digit parses in base 10; anything else — hex letters in particular —
raises `ValueError`.  (CPython additionally strips whitespace and allows
grouping underscores; the pruned payloads fed to the decoder contain
neither, so the model omits that.) -/
def pyInt : List Char → Except PyErr Int
  | '+' :: rest =>
      if rest.isEmpty || !(allDigits rest) then Except.error PyErr.valueError
      else Except.ok (digitsVal rest)
  | '-' :: rest =>
      if rest.isEmpty || !(allDigits rest) then Except.error PyErr.valueError
      else Except.ok (-(digitsVal rest : Int))
  | s =>
      if s.isEmpty || !(allDigits s) then Except.error PyErr.valueError
      else Except.ok (digitsVal s)

/-- Python dict lookup on an association list; `none` models `KeyError`
being raised at the call site. -/
def lookupTbl {α β : Type} [DecidableEq α] : List (α × β) → α → Option β
  | [], _ => none
  | (k, v) :: rest, a => if a = k then some v else lookupTbl rest a

/-- One pass of the `DataToTroubleCodes` loop body (lines 147-149) over
the current slice `ThisCode`: evaluate `int(ThisCode)` (which raises
`ValueError` on non-decimal text), skip the slice when the value is zero,
otherwise look `ThisCode[0]` up in the prefix table (`KeyError` when the
digit is unmapped) and form `TroubleCodePrefix[ThisCode[0]] +
ThisCode[1:]`.  Whenever `pyInt` succeeds the slice is nonempty, so the
`headD` default is never consulted. -/
def emitCode (tbl : List (Char × List Char)) (g : List Char) : Except PyErr (Option (List Char)) :=
  match pyInt g with
  | Except.error e => Except.error e
  | Except.ok n =>
      if n = 0 then Except.ok none
      else
        match lookupTbl tbl (g.headD ' ') with
        | none => Except.error PyErr.keyError
        | some p => Except.ok (some (p ++ g.drop 1))

/-- `DataToTroubleCodes` (lines 144-151): while the payload is nonempty,
slice off `Data[:4]`, run the loop body on it, and continue with
`Data[4:]`.  When fewer than 4 characters remain, `Data[:4]` is the whole
remainder and `Data[4:] = ""` ends the loop.  The prefix table
`TroubleCodePrefix` (a module-level dict loaded from a file outside this
core) is a parameter. -/
def DataToTroubleCodes (tbl : List (Char × List Char)) : List Char → Except PyErr (List (List Char))
  | [] => Except.ok []
  | a :: b :: c :: d :: rest =>
      match emitCode tbl [a, b, c, d] with
      | Except.error e => Except.error e
      | Except.ok none => DataToTroubleCodes tbl rest
      | Except.ok (some code) => (DataToTroubleCodes tbl rest).map (code :: ·)
  | s =>
      match emitCode tbl s with
      | Except.error e => Except.error e
      | Except.ok none => Except.ok []
      | Except.ok (some code) => Except.ok [code]

/-- The successive 4-character slices `Data[:4]` the decoder loop
consumes. -/
def chunk4 : List Char → List (List Char)
  | [] => []
  | a :: b :: c :: d :: rest => [a, b, c, d] :: chunk4 rest
  | s => [s]

/-- The decoder loop expressed over the list of slices; used to reason
about `DataToTroubleCodes`. -/
def decodeChunks (tbl : List (Char × List Char)) : List (List Char) → Except PyErr (List (List Char))
  | [] => Except.ok []
  | g :: gs =>
      match emitCode tbl g with
      | Except.error e => Except.error e
      | Except.ok none => decodeChunks tbl gs
      | Except.ok (some code) => (decodeChunks tbl gs).map (code :: ·)

/-- The code a slice contributes when its processing succeeds. -/
def emitOpt (tbl : List (Char × List Char)) (g : List Char) : Option (List Char) :=
  match emitCode tbl g with
  | Except.ok o => o
  | Except.error _ => none

/-- The `for TroubleCode in TroubleCodes` loop of `GetTroubleCodeData`
(lines 165-170): append the code, then `" : "` and its description, with
the literal `"[DESCRIPTION NOT FOUND]"` replacing a description the
`try/except` fails to look up. -/
def formatTroubleCodes (descTable : List (List Char × List Char)) (codes : List (List Char)) : List Char :=
  codes.foldl
    (fun acc c =>
      acc ++ c ++
        (match lookupTbl descTable c with
         | some d => " : ".toList ++ d ++ ['\n']
         | none => " : [DESCRIPTION NOT FOUND]\n".toList)) []

/-- `GetTroubleCodeData` (lines 160-171): frame a response, prune one
byte pair per line, decode the trouble codes, and format them with their
descriptions.  Exceptions escaping `GetResponse` or
`DataToTroubleCodes` propagate; the description lookup alone is guarded
by `try/except`. -/
def GetTroubleCodeData (tbl : List (Char × List Char)) (descTable : List (List Char × List Char))
    (stream : List ReadVal) : Option (Except PyErr (List Char) × List ReadVal) :=
  match GetResponse stream with
  | none => none
  | some (Except.error e, rest) => some (Except.error e, rest)
  | some (Except.ok resp, rest) =>
      match DataToTroubleCodes tbl (PruneData resp 1) with
      | Except.error e => some (Except.error e, rest)
      | Except.ok codes => some (Except.ok (formatTroubleCodes descTable codes), rest)

/-- `needle` occurs at the head of the haystack. -/
def leadsWith : List Char → List Char → Bool
  | [], _ => true
  | _ :: _, [] => false
  | n :: ns, h :: hs => (n == h) && leadsWith ns hs

/-- Python `hay.find(needle) != -1`: the needle occurs somewhere in the
haystack. -/
def containsSub (needle : List Char) : List Char → Bool
  | [] => needle.isEmpty
  | c :: rest => leadsWith needle (c :: rest) || containsSub needle rest

/-- The literal `"UNABLE TO CONNECT"` of lines 247-263. -/
def utcList : List Char := "UNABLE TO CONNECT".toList

/-- `Response.find("UNABLE TO CONNECT") != -1`. -/
def containsUTC (s : List Char) : Bool := containsSub utcList s

/-- The bus-connect retry loop (lines 246-262), abstracted over the probe
responses: `probe i` is the response `GetResponse(ELM327, b'0100\r')`
returns for the `i`-th probe (0-based).  `Response` starts as the
`"UNABLE TO CONNECT"` sentinel of line 247 and `TryCount` as the literal
`5` of line 246; each loop iteration decrements `TryCount` and issues one
probe.  Returns the final `Response` together with the number of probes
issued. -/
def connectLoopAux (probe : Nat → List Char) : List Char → Nat → Nat → List Char × Nat
  | response, 0, attempts => (response, attempts)
  | response, t + 1, attempts =>
      if containsUTC response then
        connectLoopAux probe (probe attempts) t (attempts + 1)
      else (response, attempts)

/-- The same retry loop (lines 246-262) threaded over the modelled byte
stream, each probe being one `GetResponse` exchange. -/
def connectStream : List Char → Nat → List ReadVal → Option (Except PyErr (List Char × List ReadVal))
  | response, 0, s => some (Except.ok (response, s))
  | response, t + 1, s =>
      if containsUTC response then
        match GetResponse s with
        | none => none
        | some (Except.error e, _) => some (Except.error e)
        | some (Except.ok r, rest) => connectStream r t rest
      else some (Except.ok (response, s))

/-- Value of one hex digit character, as `bytearray.fromhex` accepts. -/
def hexVal (c : Char) : Option Nat :=
  if '0' ≤ c ∧ c ≤ '9' then some (c.toNat - 48)
  else if 'a' ≤ c ∧ c ≤ 'f' then some (c.toNat - 87)
  else if 'A' ≤ c ∧ c ≤ 'F' then some (c.toNat - 55)
  else none

/-- `bytearray.fromhex` (line 276) on space-free input: consecutive pairs
of hex digits become bytes; an odd count or a non-hex character raises
`ValueError`.  (CPython also skips ASCII spaces between pairs; the
adapter is configured with `AT S0`, so pruned responses carry none.) -/
def fromhex : List Char → Except PyErr (List Nat)
  | [] => Except.ok []
  | a :: b :: rest =>
      match hexVal a, hexVal b with
      | some x, some y => (fromhex rest).map (fun l => (16 * x + y) :: l)
      | _, _ => Except.error PyErr.valueError
  | _ => Except.error PyErr.valueError

/-- A UTF-8 continuation byte. -/
def isCont (b : Nat) : Bool := 128 ≤ b && b < 192

/-- Strict UTF-8 decoding, as `str(..., 'UTF-8')` performs on line 276:
ASCII bytes stand alone; multi-byte sequences follow the standard
leading-byte ranges with overlong forms, surrogates and values beyond
U+10FFFF rejected; any violation raises `UnicodeDecodeError`. -/
def utf8Decode : List Nat → Except PyErr (List Char)
  | [] => Except.ok []
  | b :: rest =>
      if b < 128 then (utf8Decode rest).map (fun l => Char.ofNat b :: l)
      else if 194 ≤ b && b ≤ 223 then
        match rest with
        | c1 :: rest1 =>
            if isCont c1 then
              (utf8Decode rest1).map (fun l => Char.ofNat ((b - 192) * 64 + (c1 - 128)) :: l)
            else Except.error PyErr.unicodeError
        | [] => Except.error PyErr.unicodeError
      else if 224 ≤ b && b ≤ 239 then
        match rest with
        | c1 :: c2 :: rest2 =>
            if (if b = 224 then 160 ≤ c1 && c1 < 192
                else if b = 237 then 128 ≤ c1 && c1 < 160
                else isCont c1) && isCont c2 then
              (utf8Decode rest2).map
                (fun l => Char.ofNat ((b - 224) * 4096 + (c1 - 128) * 64 + (c2 - 128)) :: l)
            else Except.error PyErr.unicodeError
        | _ => Except.error PyErr.unicodeError
      else if 240 ≤ b && b ≤ 244 then
        match rest with
        | c1 :: c2 :: c3 :: rest3 =>
            if (if b = 240 then 144 ≤ c1 && c1 < 192
                else if b = 244 then 128 ≤ c1 && c1 < 144
                else isCont c1) && isCont c2 && isCont c3 then
              (utf8Decode rest3).map
                (fun l => Char.ofNat ((b - 240) * 262144 + (c1 - 128) * 4096 + (c2 - 128) * 64 + (c3 - 128)) :: l)
            else Except.error PyErr.unicodeError
        | _ => Except.error PyErr.unicodeError
      else Except.error PyErr.unicodeError

/-- `.replace(bytes([0x00]), b' ')` from line 276. -/
def replaceNul (bs : List Nat) : List Nat :=
  bs.map (fun b => if b = 0 then 32 else b)

/-- Line 276 after the VIN prune:
`str(bytearray.fromhex(Response).replace(bytes([0x00]), b' '), 'UTF-8')`. -/
def vinDecode (s : List Char) : Except PyErr (List Char) :=
  match fromhex s with
  | Except.error e => Except.error e
  | Except.ok bs => utf8Decode (replaceNul bs)

/-- Lines 209-242: eight consecutive `GetResponse` exchanges (`AT Z`,
`AT E0`, `AT S0`, `AT SP A3`, `AT IB 10`, `AT @1`, `AT @2`, `AT RV`)
whose results are only printed or compared for warning messages, so only
the stream consumption and possible exceptions matter to the model. -/
def runCommands : Nat → List ReadVal → Option (Except PyErr (List ReadVal))
  | 0, s => some (Except.ok s)
  | n + 1, s =>
      match GetResponse s with
      | none => none
      | some (Except.error e, _) => some (Except.error e)
      | some (Except.ok _, rest) => runCommands n rest

/-- Outcome of one run of the script body (lines 202-298): `err` is the
uncaught Python exception that terminated the process, if any;
`connected` records whether the bus-connect loop got past line 263;
`closes` counts the `ELM327.close()` calls executed before the process
ended. -/
structure MainResult where
  err : Option PyErr
  connected : Bool
  closes : Nat
  deriving DecidableEq

/-- The script body after the serial port is opened (lines 202-298):
the eight setup/information commands, the bus-connect retry loop with the
failed-connect exit of lines 263-267 (close, then `quit()`), the `AT DP`
query, the VIN request with its pruning and byte-level decoding
(lines 274-276), the three `GetTroubleCodeData` calls (services 03, 07,
0A), and the final `ELM327.close()` of line 298.  The prefix and
description tables are parameters; `none` models a run that blocks
forever inside some `GetResponse`.  There is no `try/finally` in the
source, so a path that raises records the closes executed up to that
point. -/
def mainProgram (tbl : List (Char × List Char)) (descTable : List (List Char × List Char))
    (stream : List ReadVal) : Option MainResult :=
  match runCommands 8 stream with
  | none => none
  | some (Except.error e) => some ⟨some e, false, 0⟩
  | some (Except.ok s1) =>
      match connectStream utcList 5 s1 with
      | none => none
      | some (Except.error e) => some ⟨some e, false, 0⟩
      | some (Except.ok (resp, s2)) =>
          if containsUTC resp then some ⟨none, false, 1⟩
          else
            match GetResponse s2 with
            | none => none
            | some (Except.error e, _) => some ⟨some e, true, 0⟩
            | some (Except.ok _, s3) =>
                match GetResponse s3 with
                | none => none
                | some (Except.error e, _) => some ⟨some e, true, 0⟩
                | some (Except.ok vinResp, s4) =>
                    match vinDecode (PruneDataVin vinResp 3) with
                    | Except.error e => some ⟨some e, true, 0⟩
                    | Except.ok _ =>
                        match GetTroubleCodeData tbl descTable s4 with
                        | none => none
                        | some (Except.error e, _) => some ⟨some e, true, 0⟩
                        | some (Except.ok _, s5) =>
                            match GetTroubleCodeData tbl descTable s5 with
                            | none => none
                            | some (Except.error e, _) => some ⟨some e, true, 0⟩
                            | some (Except.ok _, s6) =>
                                match GetTroubleCodeData tbl descTable s6 with
                                | none => none
                                | some (Except.error e, _) => some ⟨some e, true, 0⟩
                                | some (Except.ok _, _) => some ⟨none, true, 1⟩

/-- The stream of single bytes a device answering with the given text
produces. -/
def strBytes (s : String) : List ReadVal :=
  s.toList.map (fun c => ReadVal.byte c.toNat)

/-- Per-line drop count of the VIN pruning rule as the specification
states it: 8 characters at index 1, 2 characters at indices 2 and 3,
`2 * removeBytePairs` elsewhere. -/
def vinDrop (i n : Nat) : Nat :=
  if i = 1 then 8 else if i = 2 ∨ i = 3 then 2 else 2 * n

/-- The contribution of a single trouble code to the output of the
formatting loop of `GetTroubleCodeData`: the code itself, then `" : "`
and its description, or the placeholder text when the lookup fails. -/
def descEntry (descTable : List (List Char × List Char)) (c : List Char) : List Char :=
  c ++ (match lookupTbl descTable c with
        | some d => " : ".toList ++ d ++ ['\n']
        | none => " : [DESCRIPTION NOT FOUND]\n".toList)

/-- The step of the decoder loop succeeded (no Python exception). -/
def isOkE {ε α : Type} : Except ε α → Bool
  | Except.ok _ => true
  | Except.error _ => false

/-! ### Helper lemmas -/

theorem foldl_append_flatten {α β : Type} (f : α → List β) (l : List α) (acc : List β) :
    l.foldl (fun r x => r ++ f x) acc = acc ++ (l.map f).flatten := by
  induction l generalizing acc with
  | nil => simp
  | cons x xs ih => simp [ih, List.append_assoc]

theorem decode_eq_chunks (tbl : List (Char × List Char)) :
    ∀ data, DataToTroubleCodes tbl data = decodeChunks tbl (chunk4 data)
  | [] => rfl
  | a :: b :: c :: d :: rest => by
      have ih := decode_eq_chunks tbl rest
      cases h : emitCode tbl [a, b, c, d] with
      | error e => simp [DataToTroubleCodes, chunk4, decodeChunks, h]
      | ok o => cases o <;> simp [DataToTroubleCodes, chunk4, decodeChunks, h, ih, Except.map]
  | [a] => by
      cases h : emitCode tbl [a] with
      | error e => simp [DataToTroubleCodes, chunk4, decodeChunks, h]
      | ok o => cases o <;> simp [DataToTroubleCodes, chunk4, decodeChunks, h, Except.map]
  | [a, b] => by
      cases h : emitCode tbl [a, b] with
      | error e => simp [DataToTroubleCodes, chunk4, decodeChunks, h]
      | ok o => cases o <;> simp [DataToTroubleCodes, chunk4, decodeChunks, h, Except.map]
  | [a, b, c] => by
      cases h : emitCode tbl [a, b, c] with
      | error e => simp [DataToTroubleCodes, chunk4, decodeChunks, h]
      | ok o => cases o <;> simp [DataToTroubleCodes, chunk4, decodeChunks, h, Except.map]

theorem decodeChunks_ok (tbl : List (Char × List Char)) (gs : List (List Char))
    (h : ∀ g ∈ gs, isOkE (emitCode tbl g) = true) :
    decodeChunks tbl gs = Except.ok (gs.filterMap (emitOpt tbl)) := by
  induction gs with
  | nil => rfl
  | cons g gs ih =>
      have hg := h g (by simp)
      have hrest : ∀ g' ∈ gs, isOkE (emitCode tbl g') = true := fun g' hm => h g' (by simp [hm])
      cases he : emitCode tbl g with
      | error e => rw [he] at hg; simp [isOkE] at hg
      | ok o => cases o <;> simp [decodeChunks, he, emitOpt, ih hrest, Except.map, List.filterMap_cons]

theorem decodeChunks_ok_inv (tbl : List (Char × List Char)) (gs : List (List Char))
    (cs : List (List Char)) (h : decodeChunks tbl gs = Except.ok cs) :
    (∀ g ∈ gs, isOkE (emitCode tbl g) = true) ∧ cs = gs.filterMap (emitOpt tbl) := by
  induction gs generalizing cs with
  | nil => simp [decodeChunks] at h; simp [h]
  | cons g gs ih =>
      cases he : emitCode tbl g with
      | error e => simp [decodeChunks, he] at h
      | ok o =>
          cases o with
          | none =>
              simp [decodeChunks, he] at h
              obtain ⟨hall, hcs⟩ := ih cs h
              refine ⟨?_, ?_⟩
              · intro g' hm
                rcases List.mem_cons.mp hm with rfl | hm'
                · simp [isOkE, he]
                · exact hall g' hm'
              · simp [List.filterMap_cons, emitOpt, he, hcs]
          | some code =>
              simp only [decodeChunks, he] at h
              cases hr : decodeChunks tbl gs with
              | error e => rw [hr] at h; simp [Except.map] at h
              | ok cs' =>
                  rw [hr] at h
                  simp [Except.map] at h
                  obtain ⟨hall, hcs'⟩ := ih cs' hr
                  refine ⟨?_, ?_⟩
                  · intro g' hm
                    rcases List.mem_cons.mp hm with rfl | hm'
                    · simp [isOkE, he]
                    · exact hall g' hm'
                  · simp [List.filterMap_cons, emitOpt, he, ← h, hcs']

theorem decodeChunks_error (tbl : List (Char × List Char)) (e : PyErr) :
    ∀ gs1 : List (List Char), (∀ g ∈ gs1, isOkE (emitCode tbl g) = true) →
      ∀ g0 gs2, emitCode tbl g0 = Except.error e →
        decodeChunks tbl (gs1 ++ g0 :: gs2) = Except.error e := by
  intro gs1
  induction gs1 with
  | nil => intro _ g0 gs2 he; simp [decodeChunks, he]
  | cons g gs ih =>
      intro h g0 gs2 he
      have hg := h g (by simp)
      have hrest : ∀ g' ∈ gs, isOkE (emitCode tbl g') = true := fun g' hm => h g' (by simp [hm])
      cases hg' : emitCode tbl g with
      | error e' => rw [hg'] at hg; simp [isOkE] at hg
      | ok o => cases o <;> simp [decodeChunks, hg', ih hrest g0 gs2 he, Except.map]

theorem chunk4_len4 (g : List Char) (h : g.length = 4) : chunk4 g = [g] := by
  match g with
  | [a, b, c, d] => rfl
  | [] | [_] | [_, _] | [_, _, _] => simp at h
  | _ :: _ :: _ :: _ :: _ :: _ => simp at h

theorem chunk4_append : ∀ data s : List Char, data.length % 4 = 0 →
    chunk4 (data ++ s) = chunk4 data ++ chunk4 s
  | [], s, _ => by simp [chunk4]
  | a :: b :: c :: d :: rest, s, h => by
      have hr : rest.length % 4 = 0 := by simp at h; omega
      simp only [List.cons_append, chunk4, List.append_eq, chunk4_append rest s hr]
  | [a], s, h => by simp at h
  | [a, b], s, h => by simp at h
  | [a, b, c], s, h => by simp at h

theorem chunk4_length : ∀ data : List Char, data.length % 4 = 0 →
    (chunk4 data).length = data.length / 4
  | [], _ => by simp [chunk4]
  | a :: b :: c :: d :: rest, h => by
      have hr : rest.length % 4 = 0 := by simp at h; omega
      simp only [chunk4, List.length_cons, chunk4_length rest hr]
      omega
  | [a], h => by simp at h
  | [a, b], h => by simp at h
  | [a, b, c], h => by simp at h

theorem filterMap_length_lt_iff {α β : Type} (f : α → Option β) (l : List α) :
    (l.filterMap f).length < l.length ↔ ∃ x ∈ l, f x = none := by
  induction l with
  | nil => simp
  | cons x xs ih =>
      cases hx : f x with
      | none =>
          have hle := List.length_filterMap_le f xs
          simp [List.filterMap_cons, hx]
          omega
      | some b => simp [List.filterMap_cons, hx, ih]

theorem emitCode_ok_none_iff (tbl : List (Char × List Char)) (g : List Char) :
    emitCode tbl g = Except.ok none ↔ pyInt g = Except.ok 0 := by
  constructor
  · intro h
    unfold emitCode at h
    cases hp : pyInt g with
    | error e => simp only [hp] at h; cases h
    | ok n =>
        simp only [hp] at h
        by_cases hn : n = 0
        · simp [hn]
        · rw [if_neg hn] at h
          rcases hl : lookupTbl tbl (g.headD ' ') with _ | p <;> simp only [hl] at h <;> cases h
  · intro h
    unfold emitCode
    rw [h]
    simp

theorem emitCode_ok_some (tbl : List (Char × List Char)) (g c : List Char)
    (h : emitCode tbl g = Except.ok (some c)) :
    ∃ n : Int, pyInt g = Except.ok n ∧ n ≠ 0 ∧
      ∃ p, lookupTbl tbl (g.headD ' ') = some p ∧ c = p ++ g.drop 1 := by
  unfold emitCode at h
  cases hp : pyInt g with
  | error e => simp only [hp] at h; cases h
  | ok n =>
      simp only [hp] at h
      by_cases hn : n = 0
      · rw [if_pos hn] at h; cases h
      · rw [if_neg hn] at h
        rcases hl : lookupTbl tbl (g.headD ' ') with _ | p
        · simp only [hl] at h; cases h
        · simp only [hl] at h
          refine ⟨n, rfl, hn, p, rfl, ?_⟩
          have := h
          injection this with h1
          injection h1 with h2
          exact h2.symm

theorem emitCode_key_error (tbl : List (Char × List Char)) (g : List Char) (n : Int)
    (hp : pyInt g = Except.ok n) (hn : n ≠ 0)
    (hl : lookupTbl tbl (g.headD ' ') = none) :
    emitCode tbl g = Except.error PyErr.keyError := by
  unfold emitCode
  simp only [hp, if_neg hn, hl]

theorem emitCode_mk_ok (tbl : List (Char × List Char)) (g : List Char)
    (hparse : isOkE (pyInt g) = true)
    (hpref : pyInt g = Except.ok 0 ∨ (lookupTbl tbl (g.headD ' ')).isSome = true) :
    isOkE (emitCode tbl g) = true := by
  unfold emitCode
  cases hp : pyInt g with
  | error e => rw [hp] at hparse; simp [isOkE] at hparse
  | ok n =>
      simp only [hp]
      by_cases hn : n = 0
      · rw [if_pos hn]; rfl
      · rw [if_neg hn]
        rcases hpref with h0 | hs
        · rw [hp] at h0
          exact absurd (by injection h0) hn
        · rcases hl : lookupTbl tbl (g.headD ' ') with _ | p
          · rw [hl] at hs; simp at hs
          · simp only [hl]; rfl

theorem emitOpt_some (tbl : List (Char × List Char)) (g c : List Char)
    (h : emitOpt tbl g = some c) : emitCode tbl g = Except.ok (some c) := by
  unfold emitOpt at h
  split at h
  next o he => rw [h] at he; exact he
  next e he => cases h

theorem emitOpt_none (tbl : List (Char × List Char)) (g : List Char)
    (hk : isOkE (emitCode tbl g) = true) :
    emitOpt tbl g = none ↔ pyInt g = Except.ok 0 := by
  rw [← emitCode_ok_none_iff tbl g]
  unfold emitOpt
  rcases he : emitCode tbl g with e | o
  · rw [he] at hk; simp [isOkE] at hk
  · cases o <;> simp

theorem formatTroubleCodes_eq (descTable : List (List Char × List Char))
    (codes : List (List Char)) :
    formatTroubleCodes descTable codes = (codes.map (descEntry descTable)).flatten := by
  unfold formatTroubleCodes
  have hb : (fun (acc c : List Char) =>
        acc ++ c ++
          (match lookupTbl descTable c with
           | some d => " : ".toList ++ d ++ ['\n']
           | none => " : [DESCRIPTION NOT FOUND]\n".toList)) =
      (fun acc c => acc ++ descEntry descTable c) := by
    funext acc c
    unfold descEntry
    rw [List.append_assoc]
  rw [hb, foldl_append_flatten (descEntry descTable)]
  simp

theorem connectLoopAux_all_utc (probe : Nat → List Char)
    (hp : ∀ i, containsUTC (probe i) = true) :
    ∀ (t att : Nat) (resp : List Char), containsUTC resp = true →
      connectLoopAux probe resp t att =
        ((if t = 0 then resp else probe (att + t - 1)), att + t) := by
  intro t
  induction t with
  | zero => intro att resp h; simp [connectLoopAux]
  | succ t ih =>
      intro att resp h
      simp only [connectLoopAux, h, if_true]
      rw [ih (att + 1) (probe att) (hp att)]
      by_cases h0 : t = 0
      · subst h0; simp
      · have h1 : att + 1 + t - 1 = att + (t + 1) - 1 := by omega
        have h2 : att + 1 + t = att + (t + 1) := by omega
        simp [h0, h1, h2]

/-! ### Claims -/

/-- C5: given the byte stream `b"OK\r\r>"`, the framer `GetResponse`
returns the normalized text `"OK\n"`: the prompt marker is excluded,
every carriage return is replaced with a line break, and the resulting
doubled line break is collapsed into one. -/
theorem claim5_framing_normalization :
    GetResponse (strBytes "OK\r\r>") = some (Except.ok ("OK\n".toList), []) := by
  decide

/-- C2 (code bug): when the `read()` call yields the zero value the loop
condition of `GetResponse` tests for, the accumulated response is *not*
returned: the loop body appends `str(ReadChar, 'utf-8')` before the
condition is re-checked, and `str(0, 'utf-8')` raises `TypeError`, so on
the stream `b'O'`, `b'K'`, `0` the framer raises instead of returning
`"OK"`.  (With pyserial's actual end-of-data value `b''`, which is never
equal to `0`, the loop never terminates at all.) -/
theorem claim2_zero_read_raises :
    GetResponse (strBytes "OK" ++ [ReadVal.zero]) =
      some (Except.error PyErr.typeError, []) := by
  decide

/-- C6: `PruneData` splits the response on line breaks, drops the first
`2 * removeBytePairs` characters from the front of every line, and
returns the concatenation of the remainders with no embedded separators;
in particular pruning `"ab4123\n"` with `removeBytePairs = 1` yields
`"4123"`. -/
theorem claim6_prune_drops_pairs :
    (∀ (data : List Char) (n : Nat),
      PruneData data n = ((splitNL data).map (fun line => line.drop (2 * n))).flatten) ∧
    PruneData ("ab4123\n".toList) 1 = "4123".toList := by
  constructor
  · intro data n
    unfold PruneData
    rw [foldl_append_flatten (fun line : List Char => line.drop (2 * n)) (splitNL data) []]
    simp
  · decide

/-- C4: `PruneDataVin` removes exactly 8 characters from the line at
index 1 regardless of the caller-supplied count, exactly 2 characters
from the lines at indices 2 and 3, and `2 * removeBytePairs` characters
from the first line and every line beyond index 3, concatenating the
remainders in line order; on the spec's 4-line example the second line
`"00aabbccddee"` loses 8 characters even though the caller passed 3. -/
theorem claim4_vin_prune_counts :
    (∀ (data : List Char) (n : Nat),
      PruneDataVin data n =
        (((splitNL data).enum).map (fun p => p.2.drop (vinDrop p.1 n))).flatten) ∧
    PruneDataVin ("ABCDEF\n00aabbccddee\n0:\n1:".toList) 3 = "ddee".toList := by
  constructor
  · intro data n
    unfold PruneDataVin
    rw [foldl_append_flatten
      (fun p : Nat × List Char =>
        if p.1 = 1 then p.2.drop (2 * 4)
        else if 2 ≤ p.1 ∧ p.1 < 4 then p.2.drop 2
        else p.2.drop (2 * n))]
    simp only [List.nil_append]
    congr 1
    apply List.map_congr_left
    intro p _
    unfold vinDrop
    by_cases h1 : p.1 = 1
    · simp [h1]
    · by_cases h2 : 2 ≤ p.1 ∧ p.1 < 4
      · have h3 : p.1 = 2 ∨ p.1 = 3 := by omega
        simp [h1, h2, h3]
      · have h3 : ¬(p.1 = 2 ∨ p.1 = 3) := by omega
        simp [h1, h2, h3]
  · decide

/-- C3: a 4-character group `"0000"` never produces an emitted code,
`"0133"` under prefix table `{'0': 'P'}` produces exactly the code
`"P133"` (prefix letter looked up from the first character, concatenated
with the remaining 3 characters), and in general every code
`DataToTroubleCodes` emits comes from a consumed 4-character slice whose
integer value is non-zero. -/
theorem claim3_zero_group_skipped :
    DataToTroubleCodes [('0', "P".toList)] ("0000".toList) = Except.ok [] ∧
    DataToTroubleCodes [('0', "P".toList)] ("0133".toList) = Except.ok ["P133".toList] ∧
    ∀ (tbl : List (Char × List Char)) (data : List Char) (codes : List (List Char)),
      DataToTroubleCodes tbl data = Except.ok codes →
      ∀ c ∈ codes, ∃ g ∈ chunk4 data, ∃ n : Int,
        pyInt g = Except.ok n ∧ n ≠ 0 ∧
        ∃ p, lookupTbl tbl (g.headD ' ') = some p ∧ c = p ++ g.drop 1 := by
  refine ⟨by decide, by decide, ?_⟩
  intro tbl data codes h c hc
  rw [decode_eq_chunks] at h
  obtain ⟨hall, rfl⟩ := decodeChunks_ok_inv tbl (chunk4 data) codes h
  obtain ⟨g, hg, hgc⟩ := List.mem_filterMap.mp hc
  obtain ⟨n, hp, hn, p, hl, hcp⟩ := emitCode_ok_some tbl g c (emitOpt_some tbl g c hgc)
  exact ⟨g, hg, n, hp, hn, p, hl, hcp⟩

/-- C3 witness: the general part applied to the concrete payload
`"0133"`, whose only emitted code `"P133"` indeed stems from a non-zero
slice with a mapped first character. -/
theorem claim3_zero_group_skipped_witness :
    ∃ g ∈ chunk4 ("0133".toList), ∃ n : Int,
      pyInt g = Except.ok n ∧ n ≠ 0 ∧
      ∃ p, lookupTbl [('0', "P".toList)] (g.headD ' ') = some p ∧
        "P133".toList = p ++ g.drop 1 :=
  claim3_zero_group_skipped.2.2 [('0', "P".toList)] ("0133".toList) ["P133".toList]
    (by decide) ("P133".toList) (by decide)

/-- C1 counterexample: `"000a"` is a payload of 4 hex characters (one
group, length a multiple of 4), yet `DataToTroubleCodes` does not return
a list of at most one code for it: `int("000a")` parses in base 10 and
raises `ValueError` on the hex letter, so the decoder raises instead of
consuming the group and emitting codes. -/
theorem claim1_counterexample :
    ("000a".toList).length % 4 = 0 ∧
    DataToTroubleCodes [('0', "P".toList)] ("000a".toList) =
      Except.error PyErr.valueError := by
  decide

/-- C1 (amended): for every payload whose length is a multiple of 4,
*provided* every 4-character group is accepted by Python's base-10
`int()` (hex letters raise `ValueError`) and every non-zero group's
first character is mapped by the prefix table (else `KeyError`),
`DataToTroubleCodes` consumes the payload in exactly `len(P)/4` groups,
succeeds, and emits at most `len(P)/4` codes — fewer exactly when
zero-valued groups are present. -/
theorem claim1_decode_group_counts (tbl : List (Char × List Char)) (P : List Char)
    (h4 : P.length % 4 = 0)
    (hok : ∀ g ∈ chunk4 P, isOkE (pyInt g) = true ∧
      (pyInt g = Except.ok 0 ∨ (lookupTbl tbl (g.headD ' ')).isSome = true)) :
    (chunk4 P).length = P.length / 4 ∧
    DataToTroubleCodes tbl P = Except.ok ((chunk4 P).filterMap (emitOpt tbl)) ∧
    ((chunk4 P).filterMap (emitOpt tbl)).length ≤ P.length / 4 ∧
    (((chunk4 P).filterMap (emitOpt tbl)).length < P.length / 4 ↔
      ∃ g ∈ chunk4 P, pyInt g = Except.ok 0) := by
  have hlen := chunk4_length P h4
  have hallok : ∀ g ∈ chunk4 P, isOkE (emitCode tbl g) = true :=
    fun g hg => emitCode_mk_ok tbl g (hok g hg).1 (hok g hg).2
  have hdec : DataToTroubleCodes tbl P = Except.ok ((chunk4 P).filterMap (emitOpt tbl)) := by
    rw [decode_eq_chunks]
    exact decodeChunks_ok tbl (chunk4 P) hallok
  refine ⟨hlen, hdec, ?_, ?_⟩
  · rw [← hlen]
    exact List.length_filterMap_le _ _
  · rw [← hlen, filterMap_length_lt_iff]
    constructor
    · rintro ⟨g, hg, hnone⟩
      exact ⟨g, hg, (emitOpt_none tbl g (hallok g hg)).mp hnone⟩
    · rintro ⟨g, hg, h0⟩
      exact ⟨g, hg, (emitOpt_none tbl g (hallok g hg)).mpr h0⟩

/-- C1 witness: the amended theorem applied to the concrete payload
`"01330000"` (two groups, one of them zero) under the prefix table
`{'0': 'P'}`. -/
theorem claim1_decode_group_counts_witness :
    (chunk4 ("01330000".toList)).length = ("01330000".toList).length / 4 ∧
    DataToTroubleCodes [('0', "P".toList)] ("01330000".toList) =
      Except.ok ((chunk4 ("01330000".toList)).filterMap (emitOpt [('0', "P".toList)])) ∧
    ((chunk4 ("01330000".toList)).filterMap (emitOpt [('0', "P".toList)])).length ≤
      ("01330000".toList).length / 4 ∧
    (((chunk4 ("01330000".toList)).filterMap (emitOpt [('0', "P".toList)])).length <
        ("01330000".toList).length / 4 ↔
      ∃ g ∈ chunk4 ("01330000".toList), pyInt g = Except.ok 0) :=
  claim1_decode_group_counts [('0', "P".toList)] ("01330000".toList) (by decide) (by decide)

/-- C9: whenever the decoder reaches a 4-character group that parses to a
non-zero integer and whose first character is not a key of the prefix
table, `DataToTroubleCodes` fails with the model of Python's `KeyError`
(a `LookupError` subclass) instead of emitting a code or recovering —
whatever groups were already consumed and whatever payload follows. -/
theorem claim9_unmapped_first_digit (tbl : List (Char × List Char))
    (pre grp rest : List Char) (n : Int)
    (hpre4 : pre.length % 4 = 0)
    (hpreok : ∀ g ∈ chunk4 pre, isOkE (emitCode tbl g) = true)
    (hlen : grp.length = 4)
    (hn : pyInt grp = Except.ok n) (hnz : n ≠ 0)
    (hmiss : lookupTbl tbl (grp.headD ' ') = none) :
    DataToTroubleCodes tbl (pre ++ (grp ++ rest)) = Except.error PyErr.keyError := by
  rw [decode_eq_chunks, chunk4_append pre (grp ++ rest) hpre4,
    chunk4_append grp rest (by rw [hlen]), chunk4_len4 grp hlen]
  exact decodeChunks_error tbl PyErr.keyError (chunk4 pre) hpreok grp (chunk4 rest)
    (emitCode_key_error tbl grp n hn hnz hmiss)

/-- C9 witness: after the zero group `"0000"`, the non-zero group
`"1133"` whose first character `'1'` is absent from the table
`{'0': 'P'}` makes the decoder fail with `KeyError`. -/
theorem claim9_unmapped_first_digit_witness :
    DataToTroubleCodes [('0', "P".toList)] ("0000".toList ++ ("1133".toList ++ [])) =
      Except.error PyErr.keyError :=
  claim9_unmapped_first_digit [('0', "P".toList)] ("0000".toList) ("1133".toList) [] 1133
    (by decide) (by decide) (by decide) (by decide) (by decide) (by decide)

/-- C8: each decoded trouble code contributes its own entry to the output
of the formatting loop; a code absent from the description table is
paired with the literal placeholder `"[DESCRIPTION NOT FOUND]"` instead
of failing, and the miss is isolated per code — the whole output is the
concatenation of independent per-code entries, so one missing
description never discards or alters the entries of the other codes; the
full pipeline `GetTroubleCodeData` returns exactly that concatenation. -/
theorem claim8_description_placeholder :
    (∀ (descTable : List (List Char × List Char)) (codes : List (List Char)),
      formatTroubleCodes descTable codes = (codes.map (descEntry descTable)).flatten) ∧
    (∀ (descTable : List (List Char × List Char)) (c : List Char),
      lookupTbl descTable c = none →
      descEntry descTable c = c ++ " : [DESCRIPTION NOT FOUND]\n".toList) ∧
    (∀ (tbl : List (Char × List Char)) (descTable : List (List Char × List Char))
        (stream : List ReadVal) (resp : List Char) (rest : List ReadVal)
        (codes : List (List Char)),
      GetResponse stream = some (Except.ok resp, rest) →
      DataToTroubleCodes tbl (PruneData resp 1) = Except.ok codes →
      GetTroubleCodeData tbl descTable stream =
        some (Except.ok ((codes.map (descEntry descTable)).flatten), rest)) := by
  refine ⟨formatTroubleCodes_eq, ?_, ?_⟩
  · intro dt c h
    unfold descEntry
    rw [h]
  · intro tbl dt s resp rest codes h1 h2
    unfold GetTroubleCodeData
    simp only [h1, h2, formatTroubleCodes_eq]

/-- C8 witness: the pipeline applied to a response that decodes to
`"P133"` (with a description) and `"P007"` (without one). -/
theorem claim8_description_placeholder_witness :
    GetTroubleCodeData [('0', "P".toList)] [("P133".toList, "desc".toList)]
        (strBytes "XX01330007>") =
      some (Except.ok (((["P133".toList, "P007".toList]).map
        (descEntry [("P133".toList, "desc".toList)])).flatten), []) :=
  claim8_description_placeholder.2.2 [('0', "P".toList)] [("P133".toList, "desc".toList)]
    (strBytes "XX01330007>") ("XX01330007".toList) [] ["P133".toList, "P007".toList]
    (by decide) (by decide)

/-- C7: when every probe response contains `"UNABLE TO CONNECT"`, the
retry loop of lines 246-262 issues exactly 5 probe requests (the
configured retry count) and finishes with the failing response still in
hand; and every terminating run of the script body that ends not
connected and without an uncaught exception — the `Failed` exit of lines
263-267 — closes the transport exactly once and attempts no further
commands (its outcome is independent of anything after the probes). -/
theorem claim7_retry_exhaustion :
    (∀ probe : Nat → List Char, (∀ i, containsUTC (probe i) = true) →
      connectLoopAux probe utcList 5 0 = (probe 4, 5)) ∧
    (∀ (tbl : List (Char × List Char)) (descTable : List (List Char × List Char))
        (stream : List ReadVal) (r : MainResult),
      mainProgram tbl descTable stream = some r →
      r.connected = false → r.err = none → r.closes = 1) := by
  constructor
  · intro probe h
    have h5 := connectLoopAux_all_utc probe h 5 0 utcList (by decide)
    simpa using h5
  · intro tbl dt s r h hc he
    unfold mainProgram at h
    repeat' split at h
    all_goals first
      | exact Option.noConfusion h
      | (rw [Option.some_inj] at h; subst h; simp_all)

/-- C7 witness: with the constant probe response `"UNABLE TO CONNECT"`,
the loop probes exactly 5 times; on a concrete stream whose five probe
responses all say `"UNABLE TO CONNECT"`, the script body ends not
connected, without an exception, and with exactly one close. -/
theorem claim7_retry_exhaustion_witness :
    connectLoopAux (fun _ => utcList) utcList 5 0 = ((fun _ : Nat => utcList) 4, 5) ∧
    ∃ r : MainResult,
      mainProgram [] []
        (strBytes ">>>>>>>>" ++
          strBytes "UNABLE TO CONNECT>UNABLE TO CONNECT>UNABLE TO CONNECT>UNABLE TO CONNECT>UNABLE TO CONNECT>") =
        some r ∧ r.closes = 1 :=
  ⟨claim7_retry_exhaustion.1 (fun _ => utcList)
      (fun _ => (by decide : containsUTC utcList = true)),
   ⟨⟨none, false, 1⟩, by decide,
    claim7_retry_exhaustion.2 [] []
      (strBytes ">>>>>>>>" ++
        strBytes "UNABLE TO CONNECT>UNABLE TO CONNECT>UNABLE TO CONNECT>UNABLE TO CONNECT>UNABLE TO CONNECT>")
      ⟨none, false, 1⟩ (by decide) rfl rfl⟩⟩

/-- C10 counterexample: an exit path on which the transport is never
closed.  On this stream the bus connect succeeds and the VIN is read,
but the stored-trouble-codes response prunes to `"1133"`, whose first
character is unmapped, so `DataToTroubleCodes` raises `KeyError` and the
program terminates with zero `ELM327.close()` calls — the claim that
every exit path closes the transport is false. -/
theorem claim10_counterexample :
    mainProgram [('0', "P".toList)] []
      (strBytes ">>>>>>>>" ++ strBytes "OK>" ++ strBytes ">" ++
        strBytes "XXXXXX414243>" ++ strBytes "XX1133>") =
      some ⟨some PyErr.keyError, true, 0⟩ := by
  decide

/-- C10 (amended): the transport is closed exactly once on the two
explicit exit paths of the source — the failed-connect exit of lines
263-267 and the normal completion of line 298, i.e. on every terminating
run without an uncaught exception — but a run terminated by an uncaught
exception closes the transport zero times (the source has no
`try/finally`). -/
theorem claim10_close_on_clean_exit (tbl : List (Char × List Char))
    (descTable : List (List Char × List Char)) (stream : List ReadVal) (r : MainResult)
    (h : mainProgram tbl descTable stream = some r) :
    (r.err = none → r.closes = 1) ∧ (∀ e, r.err = some e → r.closes = 0) := by
  unfold mainProgram at h
  repeat' split at h
  all_goals first
    | exact Option.noConfusion h
    | (rw [Option.some_inj] at h; subst h; simp_all)

/-- C10 witness: a complete clean run (connect succeeds, VIN decodes,
all three trouble-code services answer) terminates with exactly one
close. -/
theorem claim10_close_on_clean_exit_witness :
    ∃ r : MainResult,
      mainProgram [('0', "P".toList)] []
        (strBytes ">>>>>>>>" ++ strBytes "OK>" ++ strBytes ">" ++
          strBytes "XXXXXX414243>" ++ strBytes "XX0000>XX0000>XX0000>") = some r ∧
      r.closes = 1 :=
  ⟨⟨none, true, 1⟩, by decide,
   (claim10_close_on_clean_exit [('0', "P".toList)] []
     (strBytes ">>>>>>>>" ++ strBytes "OK>" ++ strBytes ">" ++
       strBytes "XXXXXX414243>" ++ strBytes "XX0000>XX0000>XX0000>")
     ⟨none, true, 1⟩ (by decide)).1 rfl⟩
